import Mathlib

/-!
Shallow embedding of the `ishap` fixed-timestep runner
(`src/include/ishap/ishap.hpp`, namespace `ishap::timestep`).

Modelling choices:
- `std::chrono::nanoseconds` (a signed 64-bit tick count) is modelled as `Int`
  (nanosecond counts in the claims stay far from the 64-bit range).
- `double` configuration values (`time_scale`, `hz`, `alpha`) are modelled as
  `ℚ`; `std::chrono::duration_cast` to an integral representation truncates
  toward zero, modelled by `ratTruncToInt`.
- The user step callback is modelled by two booleans (`has_step`: a callback is
  installed, `has_err`: an error callback is installed) and an oracle
  `fails : Nat → Bool` telling whether the i-th callback invocation of the
  current `advance` call throws.  `advance` returns, besides the new runner
  state and the returned alpha, the number of error-callback invocations and
  the number of step-callback invocations, so that observable callback
  behaviour can be stated.
- The `while` loop of `advance` runs at most `safety_max_substeps` iterations,
  so it is modelled by structural recursion on the remaining-iteration fuel
  `safety_max_substeps - steps`.
-/

namespace Ishap

/-- Truncation of a rational toward zero, as `static_cast` to an integral
`std::chrono` representation does. -/
def ratTruncToInt (q : ℚ) : Int :=
  if 0 ≤ q then ⌊q⌋ else ⌈q⌉

/-- `ishap::timestep::Config` (ishap.hpp lines 49-60). -/
structure Config where
  step : Int
  time_scale : ℚ
  safety_max_delta : Int
  safety_max_substeps : Nat
  safety_max_accumulator_overflow : Nat
deriving Repr, DecidableEq

/-- The mutable state of `ishap::timestep::FixedTimestepRunner`
(ishap.hpp lines 296-318). `m_last` is the steady-clock time point in
nanoseconds since epoch (`{}`-initialised to 0). -/
structure FixedTimestepRunner where
  m_config : Config
  m_last : Int
  m_accumulator : Int
  m_paused : Bool
  m_step_error_caught : Bool
  m_last_delta : Int
  m_last_steps : Nat
deriving Repr, DecidableEq

namespace FixedTimestepRunner

/-- Result of the step loop of `advance` (ishap.hpp lines 274-285):
final accumulator, the local `steps` counter, the `m_step_error_caught`
flag, and the observable numbers of error-callback and step-callback
invocations. -/
structure StepLoopOut where
  acc : Int
  steps : Nat
  err_caught : Bool
  err_calls : Nat
  step_calls : Nat
deriving Repr, DecidableEq

/-- The `while (m_accumulator >= m_config.step && steps < m_config.safety_max_substeps)`
loop of `advance` (ishap.hpp lines 274-285), by recursion on the fuel
`safety_max_substeps - steps`.  Each iteration invokes the step callback if
installed (counted in `step_calls`); if that invocation throws
(`has_step && fails steps`), the error flag is set and the error callback, if
installed, is invoked once; then `step` is subtracted from the accumulator and
`steps` is incremented, regardless of callback outcome. -/
def step_loop (stp : Int) (has_step has_err : Bool) (fails : Nat → Bool) :
    Nat → Nat → Int → Bool → Nat → Nat → StepLoopOut
  | 0, steps, acc, errc, ec, sc => ⟨acc, steps, errc, ec, sc⟩
  | fuel+1, steps, acc, errc, ec, sc =>
    if stp ≤ acc then
      step_loop stp has_step has_err fails fuel (steps+1) (acc - stp)
        (errc || (has_step && fails steps))
        (ec + (if (has_step && fails steps) && has_err then 1 else 0))
        (sc + (if has_step then 1 else 0))
    else ⟨acc, steps, errc, ec, sc⟩

/-- The clamp `if (dt > m_config.safety_max_delta) dt = m_config.safety_max_delta`
(ishap.hpp lines 263-264). -/
def clamp_delta (c : Config) (raw : Int) : Int :=
  if raw > c.safety_max_delta then c.safety_max_delta else raw

/-- The time-scale step `if (time_scale != 1.0) dt = duration_cast<ns>(dt * time_scale)`
(ishap.hpp lines 267-269). -/
def scaled_delta (c : Config) (dt : Int) : Int :=
  if c.time_scale ≠ 1 then ratTruncToInt ((dt : ℚ) * c.time_scale) else dt

/-- The accumulator trim `if (m_accumulator > max_acc) m_accumulator = max_acc`
with `max_acc = step * safety_max_accumulator_overflow` (ishap.hpp lines
288-290). -/
def trim_acc (c : Config) (a : Int) : Int :=
  if a > c.step * (c.safety_max_accumulator_overflow : Int) then
    c.step * (c.safety_max_accumulator_overflow : Int)
  else a

/-- `alpha()` (ishap.hpp lines 203-206): `m_accumulator / m_config.step` as a
real number, modelled in `ℚ`. -/
def alpha (s : FixedTimestepRunner) : ℚ :=
  (s.m_accumulator : ℚ) / (s.m_config.step : ℚ)

/-- Result of one `advance`/`push_time`/`tick` call: the new runner state, the
returned alpha, and the observable callback invocation counts. -/
structure AdvanceResult where
  runner : FixedTimestepRunner
  alpha_ret : ℚ
  err_calls : Nat
  step_calls : Nat
deriving Repr, DecidableEq

/-- `FixedTimestepRunner::advance` (ishap.hpp lines 257-294). -/
def advance (s : FixedTimestepRunner) (has_step has_err : Bool)
    (fails : Nat → Bool) (raw_elapsed : Int) : AdvanceResult :=
  if s.m_paused then
    let s1 := { s with m_last_delta := 0, m_last_steps := 0 }
    ⟨s1, alpha s1, 0, 0⟩
  else
    let dt := scaled_delta s.m_config (clamp_delta s.m_config raw_elapsed)
    let out := step_loop s.m_config.step has_step has_err fails
      s.m_config.safety_max_substeps 0 (s.m_accumulator + dt) false 0 0
    let acc2 := trim_acc s.m_config out.acc
    let s1 := { s with m_step_error_caught := out.err_caught,
                       m_last_delta := raw_elapsed,
                       m_accumulator := acc2,
                       m_last_steps := out.steps }
    ⟨s1, alpha s1, out.err_calls, out.step_calls⟩

/-- `push_time(elapsed)` (ishap.hpp line 104): delegates to `advance`. -/
def push_time (s : FixedTimestepRunner) (has_step has_err : Bool)
    (fails : Nat → Bool) (elapsed : Int) : AdvanceResult :=
  advance s has_step has_err fails elapsed

/-- `tick_with_clock(tick_timepoint)` (ishap.hpp lines 241-247); `tick()` is
this applied to `steady_clock::now()`. -/
def tick_with_clock (s : FixedTimestepRunner) (has_step has_err : Bool)
    (fails : Nat → Bool) (tp : Int) : AdvanceResult :=
  if s.m_paused then
    let s1 := { s with m_last_delta := 0, m_last_steps := 0, m_last := tp }
    ⟨s1, alpha s1, 0, 0⟩
  else
    let s0 := if s.m_last = 0 then { s with m_last := tp } else s
    let raw := tp - s0.m_last
    advance { s0 with m_last := tp } has_step has_err fails raw

/-- `reset(start_now)` (ishap.hpp lines 83-89); `now` is the current
steady-clock time point. -/
def reset (s : FixedTimestepRunner) (start_now : Bool) (now : Int) :
    FixedTimestepRunner :=
  { s with m_accumulator := 0, m_last_delta := 0, m_last_steps := 0,
           m_paused := false,
           m_last := if start_now then now else s.m_last }

/-- The constructor (ishap.hpp lines 75-76): value-initialised members, then
`reset(true)`. -/
def init (c : Config) (now : Int) : FixedTimestepRunner :=
  reset ⟨c, 0, 0, false, false, 0, 0⟩ true now

/-- `set_step` (ishap.hpp lines 125-128): rejects non-positive values. -/
def set_step (s : FixedTimestepRunner) (v : Int) : FixedTimestepRunner :=
  if v ≤ 0 then s else { s with m_config.step := v }

/-- `set_hz` (ishap.hpp lines 110-115): rejects non-positive rates, otherwise
`step = duration_cast<ns>(duration<double>(1/hz))`. -/
def set_hz (s : FixedTimestepRunner) (hz : ℚ) : FixedTimestepRunner :=
  if hz ≤ 0 then s else { s with m_config.step := ratTruncToInt (1000000000 / hz) }

/-- `set_max_delta` (ishap.hpp lines 138-141): rejects non-positive values. -/
def set_max_delta (s : FixedTimestepRunner) (d : Int) : FixedTimestepRunner :=
  if d ≤ 0 then s else { s with m_config.safety_max_delta := d }

/-- `set_max_substeps` (ishap.hpp lines 151-153): zero is clamped to 1. -/
def set_max_substeps (s : FixedTimestepRunner) (n : Nat) : FixedTimestepRunner :=
  { s with m_config.safety_max_substeps := if n > 0 then n else 1 }

/-- `set_time_scale` (ishap.hpp lines 164-167): negative values clamp to 0. -/
def set_time_scale (s : FixedTimestepRunner) (v : ℚ) : FixedTimestepRunner :=
  { s with m_config.time_scale := if v < 0 then 0 else v }

/-- `pause(p)` (ishap.hpp line 176). -/
def pause (s : FixedTimestepRunner) (p : Bool) : FixedTimestepRunner :=
  { s with m_paused := p }

/-- `resume()` (ishap.hpp line 180). -/
def resume (s : FixedTimestepRunner) : FixedTimestepRunner :=
  { s with m_paused := false }

/-- `toggle_pause()` (ishap.hpp line 182). -/
def toggle_pause (s : FixedTimestepRunner) : FixedTimestepRunner :=
  { s with m_paused := !s.m_paused }

/-- Basic runner: step 100ns, scale 1, max delta 250, 8 substeps, overflow 3. -/
def w1 : FixedTimestepRunner := ⟨⟨100, 1, 250, 8, 3⟩, 0, 0, false, false, 0, 0⟩

/-- Runner with substep cap 1 and a high max delta (step 100, max delta 1000). -/
def cx1 : FixedTimestepRunner := ⟨⟨100, 1, 1000, 1, 3⟩, 0, 0, false, false, 0, 0⟩

/-- Runner of spec Scenario B: step 100, substep cap 2, high max delta. -/
def b4a : FixedTimestepRunner := ⟨⟨100, 1, 1000000000, 2, 3⟩, 0, 0, false, false, 0, 0⟩

/-- Runner with substep cap 1, step 100, max delta 250. -/
def b4b : FixedTimestepRunner := ⟨⟨100, 1, 250, 1, 3⟩, 0, 0, false, false, 0, 0⟩

/-- Runner of spec Scenario E: step 100, cap 8, high max delta. -/
def e5 : FixedTimestepRunner := ⟨⟨100, 1, 1000000000, 8, 3⟩, 0, 0, false, false, 0, 0⟩

/-- Runner with step 100, max delta 1000, cap 8, overflow 3. -/
def s6 : FixedTimestepRunner := ⟨⟨100, 1, 1000, 8, 3⟩, 0, 0, false, false, 0, 0⟩

/-- Runner with step 100, substep cap 2, high max delta, overflow 3. -/
def s7 : FixedTimestepRunner := ⟨⟨100, 1, 1000000000, 2, 3⟩, 0, 0, false, false, 0, 0⟩

/-- A paused runner holding 77ns in the accumulator and stale telemetry. -/
def p8 : FixedTimestepRunner := ⟨⟨100, 1, 250, 8, 3⟩, 0, 77, true, false, 5, 2⟩

/-- The step loop takes `k` iterations for some `k` bounded by the fuel,
increments `steps` by `k` and decrements the accumulator by `k * step`. -/
lemma step_loop_spec (stp : Int) (hs he : Bool) (f : Nat → Bool) :
    ∀ (fuel steps : Nat) (acc : Int) (e : Bool) (ec sc : Nat),
      ∃ k, (step_loop stp hs he f fuel steps acc e ec sc).steps = steps + k ∧
        (step_loop stp hs he f fuel steps acc e ec sc).acc = acc - (k : Int) * stp ∧
        k ≤ fuel := by
  intro fuel
  induction fuel with
  | zero =>
    intro steps acc e ec sc
    exact ⟨0, by simp [step_loop]⟩
  | succ n ih =>
    intro steps acc e ec sc
    by_cases h : stp ≤ acc
    · obtain ⟨k, h1, h2, h3⟩ := ih (steps+1) (acc - stp)
        (e || (hs && f steps))
        (ec + (if (hs && f steps) && he then 1 else 0))
        (sc + (if hs then 1 else 0))
      refine ⟨k+1, ?_, ?_, ?_⟩
      · simp only [step_loop, if_pos h, h1]; omega
      · simp only [step_loop, if_pos h, h2]; push_cast; ring
      · omega
    · exact ⟨0, by simp [step_loop, if_neg h]⟩

/-- If the step loop stopped before exhausting its fuel, it stopped because
the accumulator dropped below `step`. -/
lemma step_loop_acc_lt (stp : Int) (hs he : Bool) (f : Nat → Bool) :
    ∀ (fuel steps : Nat) (acc : Int) (e : Bool) (ec sc : Nat),
      (step_loop stp hs he f fuel steps acc e ec sc).steps < steps + fuel →
      (step_loop stp hs he f fuel steps acc e ec sc).acc < stp := by
  intro fuel
  induction fuel with
  | zero => intro steps acc e ec sc h; simp [step_loop] at h
  | succ n ih =>
    intro steps acc e ec sc h
    by_cases hc : stp ≤ acc
    · simp only [step_loop, if_pos hc] at h ⊢
      exact ih _ _ _ _ _ (by omega)
    · simp only [step_loop, if_neg hc]
      omega

/-- The step loop never drives a non-negative accumulator negative: `step` is
only subtracted while `step ≤ accumulator`. -/
lemma step_loop_acc_nonneg (stp : Int) (hs he : Bool) (f : Nat → Bool) :
    ∀ (fuel steps : Nat) (acc : Int) (e : Bool) (ec sc : Nat),
      0 ≤ acc → 0 ≤ (step_loop stp hs he f fuel steps acc e ec sc).acc := by
  intro fuel
  induction fuel with
  | zero => intro steps acc e ec sc h; simpa [step_loop] using h
  | succ n ih =>
    intro steps acc e ec sc h
    by_cases hc : stp ≤ acc
    · simp only [step_loop, if_pos hc]
      exact ih _ _ _ _ _ (by omega)
    · simpa [step_loop, if_neg hc] using h

/-- The accumulator and step count computed by the loop do not depend on the
failure oracle or on the error/telemetry accumulators: a throwing callback
still has `step` subtracted and the loop continue. -/
lemma step_loop_congr (stp : Int) (hs he : Bool) (f g : Nat → Bool) :
    ∀ (fuel steps : Nat) (acc : Int) (e e2 : Bool) (ec ec2 sc sc2 : Nat),
      (step_loop stp hs he f fuel steps acc e ec sc).acc =
        (step_loop stp hs he g fuel steps acc e2 ec2 sc2).acc ∧
      (step_loop stp hs he f fuel steps acc e ec sc).steps =
        (step_loop stp hs he g fuel steps acc e2 ec2 sc2).steps := by
  intro fuel
  induction fuel with
  | zero => intro steps acc e e2 ec ec2 sc sc2; simp [step_loop]
  | succ n ih =>
    intro steps acc e e2 ec ec2 sc sc2
    by_cases hc : stp ≤ acc
    · simp only [step_loop, if_pos hc]
      exact ih _ _ _ _ _ _ _ _
    · simp [step_loop, if_neg hc]

/-- The error flag out of the loop is the incoming flag, or some executed
iteration's callback invocation threw. -/
lemma step_loop_err_iff (stp : Int) (hs he : Bool) (f : Nat → Bool) :
    ∀ (fuel steps : Nat) (acc : Int) (e : Bool) (ec sc : Nat),
      ((step_loop stp hs he f fuel steps acc e ec sc).err_caught = true ↔
        (e = true ∨ ∃ i, steps ≤ i ∧
          i < (step_loop stp hs he f fuel steps acc e ec sc).steps ∧
          (hs && f i) = true)) := by
  intro fuel
  induction fuel with
  | zero =>
    intro steps acc e ec sc
    simp only [step_loop]
    constructor
    · intro h; exact Or.inl h
    · rintro (h | ⟨i, h1, h2, _⟩)
      · exact h
      · omega
  | succ n ih =>
    intro steps acc e ec sc
    by_cases hc : stp ≤ acc
    · simp only [step_loop, if_pos hc]
      rw [ih]
      obtain ⟨k, hk1, _, _⟩ := step_loop_spec stp hs he f n (steps+1) (acc - stp)
        (e || (hs && f steps))
        (ec + (if (hs && f steps) && he then 1 else 0))
        (sc + (if hs then 1 else 0))
      constructor
      · rintro (h | ⟨i, h1, h2, h3⟩)
        · rcases Bool.or_eq_true_iff.mp h with h | h
          · exact Or.inl h
          · exact Or.inr ⟨steps, le_refl _, by omega, h⟩
        · exact Or.inr ⟨i, by omega, h2, h3⟩
      · rintro (h | ⟨i, h1, h2, h3⟩)
        · exact Or.inl (by simp [h])
        · by_cases hi : i = steps
          · subst hi; exact Or.inl (by simp [h3])
          · exact Or.inr ⟨i, by omega, h2, h3⟩
    · simp only [step_loop, if_neg hc]
      constructor
      · intro h; exact Or.inl h
      · rintro (h | ⟨i, h1, h2, _⟩)
        · exact h
        · omega

/-- The loop invokes the step callback at most `fuel` times. -/
lemma step_loop_step_calls_le (stp : Int) (hs he : Bool) (f : Nat → Bool) :
    ∀ (fuel steps : Nat) (acc : Int) (e : Bool) (ec sc : Nat),
      (step_loop stp hs he f fuel steps acc e ec sc).step_calls ≤ sc + fuel := by
  intro fuel
  induction fuel with
  | zero => intro steps acc e ec sc; simp [step_loop]
  | succ n ih =>
    intro steps acc e ec sc
    by_cases hc : stp ≤ acc
    · simp only [step_loop, if_pos hc]
      have h := ih (steps+1) (acc - stp)
        (e || (hs && f steps))
        (ec + (if (hs && f steps) && he then 1 else 0))
        (sc + (if hs then 1 else 0))
      have hif : (if hs = true then (1 : Nat) else 0) ≤ 1 := by split <;> omega
      omega
    · simp [step_loop, if_neg hc]

/-- The trim step computes the minimum of the accumulator and the ceiling. -/
lemma trim_acc_eq_min (c : Config) (a : Int) :
    trim_acc c a = min a (c.step * (c.safety_max_accumulator_overflow : Int)) := by
  unfold trim_acc
  split <;> omega

/-- Unfolding of `advance` in the non-paused case. -/
lemma advance_not_paused (s : FixedTimestepRunner) (hs he : Bool)
    (f : Nat → Bool) (raw : Int) (hp : s.m_paused = false) :
    advance s hs he f raw =
      ⟨{ s with
          m_step_error_caught :=
            (step_loop s.m_config.step hs he f s.m_config.safety_max_substeps 0
              (s.m_accumulator + scaled_delta s.m_config (clamp_delta s.m_config raw))
              false 0 0).err_caught,
          m_last_delta := raw,
          m_accumulator :=
            trim_acc s.m_config
              (step_loop s.m_config.step hs he f s.m_config.safety_max_substeps 0
                (s.m_accumulator + scaled_delta s.m_config (clamp_delta s.m_config raw))
                false 0 0).acc,
          m_last_steps :=
            (step_loop s.m_config.step hs he f s.m_config.safety_max_substeps 0
              (s.m_accumulator + scaled_delta s.m_config (clamp_delta s.m_config raw))
              false 0 0).steps },
        alpha { s with
          m_step_error_caught :=
            (step_loop s.m_config.step hs he f s.m_config.safety_max_substeps 0
              (s.m_accumulator + scaled_delta s.m_config (clamp_delta s.m_config raw))
              false 0 0).err_caught,
          m_last_delta := raw,
          m_accumulator :=
            trim_acc s.m_config
              (step_loop s.m_config.step hs he f s.m_config.safety_max_substeps 0
                (s.m_accumulator + scaled_delta s.m_config (clamp_delta s.m_config raw))
                false 0 0).acc,
          m_last_steps :=
            (step_loop s.m_config.step hs he f s.m_config.safety_max_substeps 0
              (s.m_accumulator + scaled_delta s.m_config (clamp_delta s.m_config raw))
              false 0 0).steps },
        (step_loop s.m_config.step hs he f s.m_config.safety_max_substeps 0
          (s.m_accumulator + scaled_delta s.m_config (clamp_delta s.m_config raw))
          false 0 0).err_calls,
        (step_loop s.m_config.step hs he f s.m_config.safety_max_substeps 0
          (s.m_accumulator + scaled_delta s.m_config (clamp_delta s.m_config raw))
          false 0 0).step_calls⟩ := by
  unfold advance
  rw [hp]
  rfl

/-- Unfolding of `advance` in the paused case: only the two telemetry fields
change; the returned alpha is the unchanged alpha of the incoming state. -/
lemma advance_paused (s : FixedTimestepRunner) (hs he : Bool)
    (f : Nat → Bool) (raw : Int) (hp : s.m_paused = true) :
    advance s hs he f raw =
      ⟨{ s with m_last_delta := 0, m_last_steps := 0 }, alpha s, 0, 0⟩ := by
  unfold advance
  rw [hp]
  rfl

/-- The alpha returned by `advance` is the alpha of the state it leaves. -/
lemma advance_alpha_ret (s : FixedTimestepRunner) (hs he : Bool)
    (f : Nat → Bool) (raw : Int) :
    (advance s hs he f raw).alpha_ret = alpha (advance s hs he f raw).runner := by
  unfold advance
  split <;> rfl

/-- Truncation toward zero of a non-negative rational is non-negative. -/
lemma ratTruncToInt_nonneg (q : ℚ) (h : 0 ≤ q) : 0 ≤ ratTruncToInt q := by
  unfold ratTruncToInt
  rw [if_pos h]
  exact Int.floor_nonneg.mpr h

/-- Scaling a non-negative delta by a non-negative time scale is non-negative. -/
lemma scaled_delta_nonneg (c : Config) (dt : Int) (hdt : 0 ≤ dt)
    (hts : 0 ≤ c.time_scale) : 0 ≤ scaled_delta c dt := by
  unfold scaled_delta
  split
  · exact ratTruncToInt_nonneg _ (mul_nonneg (by exact_mod_cast hdt) hts)
  · exact hdt

/-- With a non-negative ceiling `max_delta`, the clamp of a non-negative input
stays non-negative. -/
lemma clamp_delta_nonneg (c : Config) (raw : Int) (hraw : 0 ≤ raw)
    (hmd : 0 ≤ c.safety_max_delta) : 0 ≤ clamp_delta c raw := by
  unfold clamp_delta
  split <;> omega

/-- An input not exceeding `max_delta` passes the clamp unchanged. -/
lemma clamp_delta_of_le (c : Config) (raw : Int) (h : raw ≤ c.safety_max_delta) :
    clamp_delta c raw = raw := by
  unfold clamp_delta
  omega

/-- A non-paused `advance` leaves the accumulator at or below the trim ceiling
`step * safety_max_accumulator_overflow`. -/
lemma advance_acc_le_ceiling (s : FixedTimestepRunner) (hs he : Bool)
    (f : Nat → Bool) (raw : Int) (hp : s.m_paused = false) :
    (advance s hs he f raw).runner.m_accumulator ≤
      s.m_config.step * (s.m_config.safety_max_accumulator_overflow : Int) := by
  rw [advance_not_paused s hs he f raw hp]
  dsimp only
  rw [trim_acc_eq_min]
  exact min_le_right _ _

/-- Under the data-model constraints (non-negative accumulator, time scale and
max delta, positive step) and a non-negative elapsed input, `advance` keeps
the accumulator non-negative. -/
lemma advance_acc_nonneg (s : FixedTimestepRunner) (hs he : Bool) (f : Nat → Bool)
    (raw : Int)
    (hacc : 0 ≤ s.m_accumulator) (hts : 0 ≤ s.m_config.time_scale)
    (hmd : 0 ≤ s.m_config.safety_max_delta) (hstep : 0 < s.m_config.step)
    (hraw : 0 ≤ raw) :
    0 ≤ (advance s hs he f raw).runner.m_accumulator := by
  cases hp : s.m_paused with
  | true => rw [advance_paused s hs he f raw hp]; exact hacc
  | false =>
    rw [advance_not_paused s hs he f raw hp]
    dsimp only
    rw [trim_acc_eq_min]
    refine le_min ?_ (mul_nonneg hstep.le (Int.natCast_nonneg _))
    exact step_loop_acc_nonneg _ _ _ _ _ _ _ _ _ _
      (add_nonneg hacc (scaled_delta_nonneg _ _ (clamp_delta_nonneg _ _ hraw hmd) hts))

/-- Like `advance_acc_nonneg`, for the clock-driven path: a monotone clock
sample (`m_last ≤ tp`) yields a non-negative elapsed time. -/
lemma tick_acc_nonneg (s : FixedTimestepRunner) (hs he : Bool) (f : Nat → Bool)
    (tp : Int)
    (hacc : 0 ≤ s.m_accumulator) (hts : 0 ≤ s.m_config.time_scale)
    (hmd : 0 ≤ s.m_config.safety_max_delta) (hstep : 0 < s.m_config.step)
    (htp : s.m_last ≤ tp) :
    0 ≤ (tick_with_clock s hs he f tp).runner.m_accumulator := by
  unfold tick_with_clock
  cases hp : s.m_paused with
  | true => simp only [hp, if_true]; exact hacc
  | false =>
    simp only [hp, Bool.false_eq_true, if_false]
    by_cases h0 : s.m_last = 0
    · rw [if_pos h0]
      exact advance_acc_nonneg _ hs he f _ hacc hts hmd hstep
        (show (0:Int) ≤ tp - tp by omega)
    · rw [if_neg h0]
      exact advance_acc_nonneg _ hs he f _ hacc hts hmd hstep
        (show (0:Int) ≤ tp - s.m_last by omega)

/-- When a non-paused `advance` records fewer than `safety_max_substeps`
steps, its loop exited with `accumulator < step`, and the trim only lowers. -/
lemma advance_acc_lt_step (s : FixedTimestepRunner) (hs he : Bool) (f : Nat → Bool)
    (raw : Int) (hp : s.m_paused = false)
    (hlt : (advance s hs he f raw).runner.m_last_steps < s.m_config.safety_max_substeps) :
    (advance s hs he f raw).runner.m_accumulator < s.m_config.step := by
  rw [advance_not_paused s hs he f raw hp] at hlt ⊢
  dsimp only at hlt ⊢
  set out := step_loop s.m_config.step hs he f s.m_config.safety_max_substeps 0
    (s.m_accumulator + scaled_delta s.m_config (clamp_delta s.m_config raw)) false 0 0 with hout
  have hacclt : out.acc < s.m_config.step :=
    step_loop_acc_lt _ _ _ _ _ _ _ _ _ _
      (show out.steps < 0 + s.m_config.safety_max_substeps by omega)
  rw [trim_acc_eq_min]
  exact lt_of_le_of_lt (min_le_left _ _) hacclt

/-- Claim C1 (amended): for a non-paused runner with well-formed configuration
and a non-negative elapsed input not exceeding `safety_max_delta`, a single
`advance` ends with `accumulator_after = min (accumulator_before +
(elapsed scaled by time_scale, truncated to nanoseconds) - steps_taken * step)
(step * safety_max_accumulator_overflow)` — the plain sum, except that the
overflow trim caps it — and whenever `steps_taken < safety_max_substeps` also
`0 ≤ accumulator_after < step`. -/
theorem advance_accumulator_characterization
    (s : FixedTimestepRunner) (hs he : Bool) (f : Nat → Bool) (raw : Int)
    (hp : s.m_paused = false) (h0 : 0 ≤ raw)
    (hd : raw ≤ s.m_config.safety_max_delta)
    (hacc : 0 ≤ s.m_accumulator) (hts : 0 ≤ s.m_config.time_scale)
    (hstep : 0 < s.m_config.step) :
    (advance s hs he f raw).runner.m_accumulator =
      min (s.m_accumulator + scaled_delta s.m_config raw
            - ((advance s hs he f raw).runner.m_last_steps : Int) * s.m_config.step)
          (s.m_config.step * (s.m_config.safety_max_accumulator_overflow : Int)) ∧
    ((advance s hs he f raw).runner.m_last_steps < s.m_config.safety_max_substeps →
      0 ≤ (advance s hs he f raw).runner.m_accumulator ∧
      (advance s hs he f raw).runner.m_accumulator < s.m_config.step) := by
  rw [advance_not_paused s hs he f raw hp]
  dsimp only
  rw [clamp_delta_of_le s.m_config raw hd]
  obtain ⟨k, hk1, hk2, hk3⟩ := step_loop_spec s.m_config.step hs he f
    s.m_config.safety_max_substeps 0 (s.m_accumulator + scaled_delta s.m_config raw) false 0 0
  set out := step_loop s.m_config.step hs he f s.m_config.safety_max_substeps 0
    (s.m_accumulator + scaled_delta s.m_config raw) false 0 0 with hout
  have hnn : 0 ≤ out.acc := step_loop_acc_nonneg _ _ _ _ _ _ _ _ _ _
    (add_nonneg hacc (scaled_delta_nonneg _ _ h0 hts))
  refine ⟨?_, ?_⟩
  · rw [trim_acc_eq_min, hk2, hk1]
    norm_num
  · intro hlt
    have hacclt : out.acc < s.m_config.step :=
      step_loop_acc_lt _ _ _ _ _ _ _ _ _ _
        (show out.steps < 0 + s.m_config.safety_max_substeps by omega)
    rw [trim_acc_eq_min]
    constructor
    · exact le_min hnn (mul_nonneg hstep.le (Int.natCast_nonneg _))
    · exact lt_of_le_of_lt (min_le_left _ _) hacclt

/-- Witness for C1: step 100, max delta 250, cap 8, elapsed 250 → 2 steps,
accumulator 50. -/
theorem advance_accumulator_characterization_witness :
    (advance w1 false false (fun _ => false) 250).runner.m_accumulator =
      min (w1.m_accumulator + scaled_delta w1.m_config 250
            - ((advance w1 false false (fun _ => false) 250).runner.m_last_steps : Int) *
              w1.m_config.step)
          (w1.m_config.step * (w1.m_config.safety_max_accumulator_overflow : Int)) ∧
    ((advance w1 false false (fun _ => false) 250).runner.m_last_steps <
        w1.m_config.safety_max_substeps →
      0 ≤ (advance w1 false false (fun _ => false) 250).runner.m_accumulator ∧
      (advance w1 false false (fun _ => false) 250).runner.m_accumulator <
        w1.m_config.step) :=
  advance_accumulator_characterization w1 false false (fun _ => false) 250 rfl
    (by decide) (by decide) (by decide) (by norm_num [w1]) (by decide)

/-- Counterexample for C1 as stated: step 100, cap 1, max delta 1000,
overflow 3; elapsed 500 satisfies every premise of the claim, yet the final
accumulator is the trimmed 300, not `0 + 500 - 1*100 = 400` as the plain-sum
equation predicts. -/
theorem advance_trim_breaks_plain_sum :
    (0:Int) ≤ 500 ∧ (500:Int) ≤ cx1.m_config.safety_max_delta ∧
    cx1.m_paused = false ∧ (0:Int) ≤ cx1.m_accumulator ∧
    (0:ℚ) ≤ cx1.m_config.time_scale ∧ (0:Int) < cx1.m_config.step ∧
    ¬((advance cx1 false false (fun _ => false) 500).runner.m_accumulator =
      cx1.m_accumulator + scaled_delta cx1.m_config 500
        - ((advance cx1 false false (fun _ => false) 500).runner.m_last_steps : Int) *
          cx1.m_config.step) :=
  ⟨by decide, by decide, rfl, by decide, by norm_num [cx1], by decide, by decide⟩

/-- Claim C2: one `advance` call executes, and records in `m_last_steps`, at
most `safety_max_substeps` fixed steps, for any elapsed input and any state;
the step callback is invoked at most that many times. -/
theorem advance_steps_le_max_substeps
    (s : FixedTimestepRunner) (hs he : Bool) (f : Nat → Bool) (raw : Int) :
    (advance s hs he f raw).runner.m_last_steps ≤ s.m_config.safety_max_substeps ∧
    (advance s hs he f raw).step_calls ≤ s.m_config.safety_max_substeps := by
  cases hp : s.m_paused with
  | true =>
    rw [advance_paused s hs he f raw hp]
    exact ⟨Nat.zero_le _, Nat.zero_le _⟩
  | false =>
    rw [advance_not_paused s hs he f raw hp]
    dsimp only
    obtain ⟨k, hk1, _, hk3⟩ := step_loop_spec s.m_config.step hs he f
      s.m_config.safety_max_substeps 0
      (s.m_accumulator + scaled_delta s.m_config (clamp_delta s.m_config raw)) false 0 0
    have hsc := step_loop_step_calls_le s.m_config.step hs he f
      s.m_config.safety_max_substeps 0
      (s.m_accumulator + scaled_delta s.m_config (clamp_delta s.m_config raw)) false 0 0
    exact ⟨by omega, by omega⟩

/-- Claim C3 (amended): `0 ≤ accumulator` holds initially and is preserved by
every public operation, provided the elapsed argument of `push_time` is
non-negative, the clock sample of `tick` is monotone, and the configuration
satisfies the data model (`time_scale ≥ 0`, `safety_max_delta ≥ 0`,
`step > 0`); the code does not clamp a negative elapsed input, so the
unrestricted claim fails (see the counterexample). -/
theorem accumulator_nonneg_preserved
    (s : FixedTimestepRunner) (hs he : Bool) (f : Nat → Bool)
    (e tp now vstep vmd : Int) (vhz vts : ℚ) (n : Nat) (p b : Bool) (c : Config)
    (hacc : 0 ≤ s.m_accumulator) (hts : 0 ≤ s.m_config.time_scale)
    (hmd : 0 ≤ s.m_config.safety_max_delta) (hstep : 0 < s.m_config.step)
    (helap : 0 ≤ e) (htp : s.m_last ≤ tp) :
    0 ≤ (push_time s hs he f e).runner.m_accumulator ∧
    0 ≤ (tick_with_clock s hs he f tp).runner.m_accumulator ∧
    0 ≤ (reset s b now).m_accumulator ∧
    0 ≤ (init c now).m_accumulator ∧
    0 ≤ (set_step s vstep).m_accumulator ∧
    0 ≤ (set_hz s vhz).m_accumulator ∧
    0 ≤ (set_max_delta s vmd).m_accumulator ∧
    0 ≤ (set_max_substeps s n).m_accumulator ∧
    0 ≤ (set_time_scale s vts).m_accumulator ∧
    0 ≤ (pause s p).m_accumulator ∧
    0 ≤ (resume s).m_accumulator ∧
    0 ≤ (toggle_pause s).m_accumulator := by
  refine ⟨advance_acc_nonneg s hs he f e hacc hts hmd hstep helap,
    tick_acc_nonneg s hs he f tp hacc hts hmd hstep htp,
    le_refl 0, le_refl 0, ?_, ?_, ?_, hacc, hacc, hacc, hacc, hacc⟩
  · unfold set_step; split <;> exact hacc
  · unfold set_hz; split <;> exact hacc
  · unfold set_max_delta; split <;> exact hacc

/-- Witness for C3 at a concrete runner, elapsed 100, clock sample 5 and
concrete setter arguments. -/
theorem accumulator_nonneg_preserved_witness :
    0 ≤ (push_time w1 false false (fun _ => false) 100).runner.m_accumulator ∧
    0 ≤ (tick_with_clock w1 false false (fun _ => false) 5).runner.m_accumulator ∧
    0 ≤ (reset w1 true 0).m_accumulator ∧
    0 ≤ (init ⟨100, 1, 250, 8, 3⟩ 0).m_accumulator ∧
    0 ≤ (set_step w1 10).m_accumulator ∧
    0 ≤ (set_hz w1 60).m_accumulator ∧
    0 ≤ (set_max_delta w1 10).m_accumulator ∧
    0 ≤ (set_max_substeps w1 4).m_accumulator ∧
    0 ≤ (set_time_scale w1 2).m_accumulator ∧
    0 ≤ (pause w1 true).m_accumulator ∧
    0 ≤ (resume w1).m_accumulator ∧
    0 ≤ (toggle_pause w1).m_accumulator :=
  accumulator_nonneg_preserved w1 false false (fun _ => false) 100 5 0 10 10 60 2 4 true true
    ⟨100, 1, 250, 8, 3⟩ (by decide) (by norm_num [w1]) (by decide) (by decide)
    (by decide) (by decide)

/-- Counterexample for C3 as stated: `push_time` with the (signed) elapsed
argument -50ns drives the accumulator of a fresh default-like runner to
-50 < 0 — no clamp in `advance` rejects a negative elapsed input. -/
theorem push_time_negative_elapsed_cx :
    (push_time w1 false false (fun _ => false) (-50)).runner.m_accumulator = -50 ∧
    (push_time w1 false false (fun _ => false) (-50)).runner.m_accumulator < 0 :=
  ⟨by decide, by decide⟩

/-- Claim C4 (amended): for a non-paused `advance` with well-formed
configuration and non-negative elapsed, the returned alpha lies in
`[0, safety_max_accumulator_overflow]` (the top end is reached exactly when
the trim fires), and lies in `[0, 1)` whenever the call performed fewer than
`safety_max_substeps` steps. -/
theorem alpha_bounds
    (s : FixedTimestepRunner) (hs he : Bool) (f : Nat → Bool) (raw : Int)
    (hp : s.m_paused = false) (h0 : 0 ≤ raw)
    (hacc : 0 ≤ s.m_accumulator) (hts : 0 ≤ s.m_config.time_scale)
    (hmd : 0 ≤ s.m_config.safety_max_delta) (hstep : 0 < s.m_config.step) :
    0 ≤ (advance s hs he f raw).alpha_ret ∧
    (advance s hs he f raw).alpha_ret ≤ (s.m_config.safety_max_accumulator_overflow : ℚ) ∧
    ((advance s hs he f raw).runner.m_last_steps < s.m_config.safety_max_substeps →
      (advance s hs he f raw).alpha_ret < 1) := by
  have hconf : (advance s hs he f raw).runner.m_config = s.m_config := by
    rw [advance_not_paused s hs he f raw hp]
  have hnn : 0 ≤ (advance s hs he f raw).runner.m_accumulator :=
    advance_acc_nonneg s hs he f raw hacc hts hmd hstep h0
  have hle := advance_acc_le_ceiling s hs he f raw hp
  have hstepQ : (0:ℚ) < (s.m_config.step : ℚ) := by exact_mod_cast hstep
  rw [advance_alpha_ret]
  unfold alpha
  rw [hconf]
  refine ⟨div_nonneg (by exact_mod_cast hnn) hstepQ.le, ?_, ?_⟩
  · rw [div_le_iff₀ hstepQ]
    have hcast : ((advance s hs he f raw).runner.m_accumulator : ℚ) ≤
        (s.m_config.step : ℚ) * (s.m_config.safety_max_accumulator_overflow : ℚ) := by
      exact_mod_cast hle
    linarith
  · intro hlt
    rw [div_lt_one hstepQ]
    exact_mod_cast advance_acc_lt_step s hs he f raw hp hlt

/-- Witness for C4: elapsed 250 on the basic runner → 2 of 8 steps,
alpha 1/2. -/
theorem alpha_bounds_witness :
    0 ≤ (advance w1 false false (fun _ => false) 250).alpha_ret ∧
    (advance w1 false false (fun _ => false) 250).alpha_ret ≤
      (w1.m_config.safety_max_accumulator_overflow : ℚ) ∧
    ((advance w1 false false (fun _ => false) 250).runner.m_last_steps <
        w1.m_config.safety_max_substeps →
      (advance w1 false false (fun _ => false) 250).alpha_ret < 1) :=
  alpha_bounds w1 false false (fun _ => false) 250 rfl (by decide) (by decide)
    (by norm_num [w1]) (by decide) (by decide)

/-- Counterexample for C4 as stated: Scenario B (step 100, cap 2, elapsed
1000) trims the accumulator to 300 and `alpha()` returns exactly the overflow
multiplier 3, refuting the half-open upper bound; and on a cap-1 runner fed
elapsed 250 no trim occurs (the accumulator 150 equals its untrimmed value
and is below the 300 ceiling) yet alpha is 3/2, refuting "strictly in [0,1)
whenever no overflow trim has just occurred". -/
theorem alpha_reaches_overflow :
    ((advance b4a false false (fun _ => false) 1000).alpha_ret =
        (b4a.m_config.safety_max_accumulator_overflow : ℚ) ∧
      ¬((advance b4a false false (fun _ => false) 1000).alpha_ret <
        (b4a.m_config.safety_max_accumulator_overflow : ℚ))) ∧
    ((advance b4b false false (fun _ => false) 250).runner.m_accumulator ≤
        b4b.m_config.step * (b4b.m_config.safety_max_accumulator_overflow : Int) ∧
      (advance b4b false false (fun _ => false) 250).runner.m_accumulator =
        b4b.m_accumulator + scaled_delta b4b.m_config (clamp_delta b4b.m_config 250)
          - ((advance b4b false false (fun _ => false) 250).runner.m_last_steps : Int) *
            b4b.m_config.step ∧
      ¬((advance b4b false false (fun _ => false) 250).alpha_ret < 1)) := by
  have ha : (advance b4a false false (fun _ => false) 1000).runner.m_accumulator = 300 := by
    decide
  have hca : (advance b4a false false (fun _ => false) 1000).runner.m_config = b4a.m_config := by
    rw [advance_not_paused b4a false false (fun _ => false) 1000 rfl]
  have hb : (advance b4b false false (fun _ => false) 250).runner.m_accumulator = 150 := by
    decide
  have hcb : (advance b4b false false (fun _ => false) 250).runner.m_config = b4b.m_config := by
    rw [advance_not_paused b4b false false (fun _ => false) 250 rfl]
  have haa : (advance b4a false false (fun _ => false) 1000).alpha_ret = 3 := by
    rw [advance_alpha_ret]
    unfold alpha
    rw [ha, hca]
    norm_num [b4a]
  have hab : (advance b4b false false (fun _ => false) 250).alpha_ret = 3/2 := by
    rw [advance_alpha_ret]
    unfold alpha
    rw [hb, hcb]
    norm_num [b4b]
  refine ⟨⟨?_, ?_⟩, ⟨by decide, by decide, ?_⟩⟩
  · rw [haa]; norm_num [b4a]
  · rw [haa]; norm_num [b4a]
  · rw [hab]; norm_num

/-- Claim C5: a failing step callback is swallowed — the accumulator and step
count of `advance` are identical to those of a never-failing callback — and
in the Scenario E instance (callback throws on the first of two due steps)
the error flag is set, the error callback runs exactly once, 2 steps are
still taken and the accumulator is decremented twice. -/
theorem advance_error_swallowing
    (s : FixedTimestepRunner) (hs he : Bool) (f : Nat → Bool) (raw : Int) :
    ((advance s hs he f raw).runner.m_accumulator =
       (advance s hs he (fun _ => false) raw).runner.m_accumulator ∧
     (advance s hs he f raw).runner.m_last_steps =
       (advance s hs he (fun _ => false) raw).runner.m_last_steps) ∧
    ((advance e5 true true (fun i => decide (i = 0)) 250).runner.m_step_error_caught = true ∧
     (advance e5 true true (fun i => decide (i = 0)) 250).err_calls = 1 ∧
     (advance e5 true true (fun i => decide (i = 0)) 250).runner.m_last_steps = 2 ∧
     (advance e5 true true (fun i => decide (i = 0)) 250).runner.m_accumulator =
       e5.m_accumulator + 250 - 2 * e5.m_config.step) := by
  constructor
  · cases hp : s.m_paused with
    | true =>
      rw [advance_paused s hs he f raw hp, advance_paused s hs he _ raw hp]
      exact ⟨rfl, rfl⟩
    | false =>
      rw [advance_not_paused s hs he f raw hp, advance_not_paused s hs he _ raw hp]
      dsimp only
      obtain ⟨h1, h2⟩ := step_loop_congr s.m_config.step hs he f (fun _ => false)
        s.m_config.safety_max_substeps 0
        (s.m_accumulator + scaled_delta s.m_config (clamp_delta s.m_config raw))
        false false 0 0 0 0
      rw [h1, h2]
      exact ⟨rfl, rfl⟩
  · exact ⟨by decide, by decide, by decide, by decide⟩

/-- Claim C6 (amended): after a non-paused `advance` call, the error flag is
set iff some executed step invocation of the installed callback threw; a
paused call does not reset the flag (see the counterexample). -/
theorem step_error_caught_matches_failures
    (s : FixedTimestepRunner) (hs he : Bool) (f : Nat → Bool) (raw : Int)
    (hp : s.m_paused = false) :
    (advance s hs he f raw).runner.m_step_error_caught =
      (List.range (advance s hs he f raw).runner.m_last_steps).any (fun i => hs && f i) := by
  rw [advance_not_paused s hs he f raw hp]
  dsimp only
  rw [Bool.eq_iff_iff, step_loop_err_iff]
  simp [List.any_eq_true, List.mem_range, Nat.zero_le]

/-- Witness for C6 at a concrete running state whose callback always throws. -/
theorem step_error_caught_matches_failures_witness :
    (advance s6 true false (fun _ => true) 100).runner.m_step_error_caught =
      (List.range (advance s6 true false (fun _ => true) 100).runner.m_last_steps).any
        (fun i => true && (fun _ => true) i) :=
  step_error_caught_matches_failures s6 true false (fun _ => true) 100 rfl

/-- Counterexample for C6 as stated: after a failing advance, pausing and
calling `push_time` again leaves `m_step_error_caught` true even though the
most recent call invoked no callback at all (zero step invocations). -/
theorem stale_error_flag_after_paused_call :
    (push_time (pause (advance s6 true false (fun _ => true) 100).runner true) true false
        (fun _ => true) 100).runner.m_step_error_caught = true ∧
    (push_time (pause (advance s6 true false (fun _ => true) 100).runner true) true false
        (fun _ => true) 100).step_calls = 0 ∧
    (push_time (pause (advance s6 true false (fun _ => true) 100).runner true) true false
        (fun _ => true) 100).runner.m_last_steps = 0 :=
  ⟨by decide, by decide, by decide⟩

/-- Claim C7 (amended): after every advance call made while not paused, the
accumulator is at most `step * safety_max_accumulator_overflow`, and when the
leftover after stepping exceeds that ceiling it is clamped to exactly the
ceiling; a paused call leaves a pre-existing excess untouched (see the
counterexample). -/
theorem advance_overflow_trim
    (s : FixedTimestepRunner) (hs he : Bool) (f : Nat → Bool) (raw : Int)
    (hp : s.m_paused = false) :
    (advance s hs he f raw).runner.m_accumulator ≤
      s.m_config.step * (s.m_config.safety_max_accumulator_overflow : Int) ∧
    (s.m_accumulator + scaled_delta s.m_config (clamp_delta s.m_config raw)
        - ((advance s hs he f raw).runner.m_last_steps : Int) * s.m_config.step >
        s.m_config.step * (s.m_config.safety_max_accumulator_overflow : Int) →
      (advance s hs he f raw).runner.m_accumulator =
        s.m_config.step * (s.m_config.safety_max_accumulator_overflow : Int)) := by
  refine ⟨advance_acc_le_ceiling s hs he f raw hp, ?_⟩
  rw [advance_not_paused s hs he f raw hp]
  dsimp only
  obtain ⟨k, hk1, hk2, hk3⟩ := step_loop_spec s.m_config.step hs he f
    s.m_config.safety_max_substeps 0
    (s.m_accumulator + scaled_delta s.m_config (clamp_delta s.m_config raw)) false 0 0
  set out := step_loop s.m_config.step hs he f s.m_config.safety_max_substeps 0
    (s.m_accumulator + scaled_delta s.m_config (clamp_delta s.m_config raw)) false 0 0 with hout
  intro hgt
  have hksteps : ((out.steps : Nat) : Int) = (k : Int) := by rw [hk1]; push_cast; ring
  have hk2s : out.acc = s.m_accumulator + scaled_delta s.m_config (clamp_delta s.m_config raw)
      - (out.steps : Int) * s.m_config.step := by
    rw [hksteps, hk2]
  rw [← hk2s] at hgt
  rw [trim_acc_eq_min]
  exact min_eq_right hgt.le

/-- Witness for C7: Scenario B, elapsed 1000 on a cap-2 runner. -/
theorem advance_overflow_trim_witness :
    (advance s7 false false (fun _ => false) 1000).runner.m_accumulator ≤
      s7.m_config.step * (s7.m_config.safety_max_accumulator_overflow : Int) ∧
    (s7.m_accumulator + scaled_delta s7.m_config (clamp_delta s7.m_config 1000)
        - ((advance s7 false false (fun _ => false) 1000).runner.m_last_steps : Int) *
          s7.m_config.step >
        s7.m_config.step * (s7.m_config.safety_max_accumulator_overflow : Int) →
      (advance s7 false false (fun _ => false) 1000).runner.m_accumulator =
        s7.m_config.step * (s7.m_config.safety_max_accumulator_overflow : Int)) :=
  advance_overflow_trim s7 false false (fun _ => false) 1000 rfl

/-- Counterexample for C7 as stated ("whatever the prior state"): trim to 300
with step 100, shrink the step to 50 (ceiling now 150), pause, then call
`push_time` — an advance call after which the accumulator 300 exceeds the
ceiling 150. -/
theorem paused_advance_keeps_excess :
    (push_time (pause (set_step (push_time s7 false false (fun _ => false) 1000).runner 50) true)
        false false (fun _ => false) 0).runner.m_accumulator = 300 ∧
    (push_time (pause (set_step (push_time s7 false false (fun _ => false) 1000).runner 50) true)
        false false (fun _ => false) 0).runner.m_config.step *
      ((push_time (pause (set_step (push_time s7 false false (fun _ => false) 1000).runner 50) true)
          false false (fun _ => false) 0).runner.m_config.safety_max_accumulator_overflow : Int)
      = 150 ∧
    ¬((push_time (pause (set_step (push_time s7 false false (fun _ => false) 1000).runner 50) true)
        false false (fun _ => false) 0).runner.m_accumulator ≤
      (push_time (pause (set_step (push_time s7 false false (fun _ => false) 1000).runner 50) true)
          false false (fun _ => false) 0).runner.m_config.step *
        ((push_time (pause (set_step (push_time s7 false false (fun _ => false) 1000).runner 50)
            true) false false (fun _ => false) 0).runner.m_config.safety_max_accumulator_overflow :
          Int)) :=
  ⟨by decide, by decide, by decide⟩

/-- Claim C8: while paused, `push_time` and `tick` (with any argument) leave
the accumulator and alpha unchanged, never invoke the step callback, and
record `m_last_steps = 0`. -/
theorem paused_noop
    (s : FixedTimestepRunner) (hs he : Bool) (f : Nat → Bool) (x : Int)
    (hp : s.m_paused = true) :
    (push_time s hs he f x).runner.m_accumulator = s.m_accumulator ∧
    (push_time s hs he f x).alpha_ret = alpha s ∧
    (push_time s hs he f x).step_calls = 0 ∧
    (push_time s hs he f x).runner.m_last_steps = 0 ∧
    (tick_with_clock s hs he f x).runner.m_accumulator = s.m_accumulator ∧
    (tick_with_clock s hs he f x).alpha_ret = alpha s ∧
    (tick_with_clock s hs he f x).step_calls = 0 ∧
    (tick_with_clock s hs he f x).runner.m_last_steps = 0 := by
  have htick : tick_with_clock s hs he f x =
      ⟨{ s with m_last_delta := 0, m_last_steps := 0, m_last := x }, alpha s, 0, 0⟩ := by
    unfold tick_with_clock
    rw [hp]
    rfl
  unfold push_time
  rw [advance_paused s hs he f x hp, htick]
  exact ⟨rfl, rfl, rfl, rfl, rfl, rfl, rfl, rfl⟩

/-- Witness for C8 at a paused runner holding 77ns. -/
theorem paused_noop_witness :
    (push_time p8 true true (fun _ => false) 123).runner.m_accumulator = p8.m_accumulator ∧
    (push_time p8 true true (fun _ => false) 123).alpha_ret = alpha p8 ∧
    (push_time p8 true true (fun _ => false) 123).step_calls = 0 ∧
    (push_time p8 true true (fun _ => false) 123).runner.m_last_steps = 0 ∧
    (tick_with_clock p8 true true (fun _ => false) 123).runner.m_accumulator =
      p8.m_accumulator ∧
    (tick_with_clock p8 true true (fun _ => false) 123).alpha_ret = alpha p8 ∧
    (tick_with_clock p8 true true (fun _ => false) 123).step_calls = 0 ∧
    (tick_with_clock p8 true true (fun _ => false) 123).runner.m_last_steps = 0 :=
  paused_noop p8 true true (fun _ => false) 123 rfl

/-- Claim C9: feeding an elapsed time above `safety_max_delta` to `push_time`
yields the same step count and the same final accumulator as feeding exactly
`safety_max_delta`. -/
theorem clamp_idempotence
    (s : FixedTimestepRunner) (hs he : Bool) (f : Nat → Bool) (e : Int)
    (hgt : e > s.m_config.safety_max_delta) :
    (push_time s hs he f e).runner.m_accumulator =
      (push_time s hs he f s.m_config.safety_max_delta).runner.m_accumulator ∧
    (push_time s hs he f e).runner.m_last_steps =
      (push_time s hs he f s.m_config.safety_max_delta).runner.m_last_steps := by
  have hc1 : clamp_delta s.m_config e = s.m_config.safety_max_delta := by
    unfold clamp_delta
    rw [if_pos hgt]
  have hc2 : clamp_delta s.m_config s.m_config.safety_max_delta =
      s.m_config.safety_max_delta := clamp_delta_of_le _ _ le_rfl
  cases hp : s.m_paused with
  | true =>
    unfold push_time
    rw [advance_paused s hs he f e hp, advance_paused s hs he f _ hp]
    exact ⟨rfl, rfl⟩
  | false =>
    unfold push_time
    rw [advance_not_paused s hs he f e hp, advance_not_paused s hs he f _ hp, hc1, hc2]
    exact ⟨rfl, rfl⟩

/-- Witness for C9: elapsed 300 against max delta 250 on the basic runner. -/
theorem clamp_idempotence_witness :
    (push_time w1 false false (fun _ => false) 300).runner.m_accumulator =
      (push_time w1 false false (fun _ => false)
        w1.m_config.safety_max_delta).runner.m_accumulator ∧
    (push_time w1 false false (fun _ => false) 300).runner.m_last_steps =
      (push_time w1 false false (fun _ => false)
        w1.m_config.safety_max_delta).runner.m_last_steps :=
  clamp_idempotence w1 false false (fun _ => false) 300 (by decide)

/-- Claim C10: `reset` reinitialises the accumulator, telemetry and pause
flag but does not touch `m_step_error_caught`, so after a failing advance the
flag survives a reset with either argument. -/
theorem reset_preserves_error_flag
    (s : FixedTimestepRunner) (b : Bool) (now : Int) :
    (reset s b now).m_step_error_caught = s.m_step_error_caught ∧
    (reset s b now).m_accumulator = 0 ∧
    (reset s b now).m_last_delta = 0 ∧
    (reset s b now).m_last_steps = 0 ∧
    (reset s b now).m_paused = false :=
  ⟨rfl, rfl, rfl, rfl, rfl⟩

end FixedTimestepRunner

end Ishap
